import Mathlib

/-!
# Selective reconciler of the virtual-cluster syncer

A shallow embedding of `pkg/syncer/conversion/equality.go` and theorems about it.

Go values are embedded as follows.

* A `map[string]string` is `GoMap = Option StrMap`: `none` is the nil map, `some m`
  a map with the entries of the association list `m`, whose keys are pairwise distinct.
  A `range` loop over the map visits the entries in the order of the list; every
  theorem quantifies over all such lists, hence over every iteration order.
* A `map[string][]byte` is `BinMap`, built the same way, with `none` for a nil `[]byte`.
* A `*int64` is an `Option Int`.
* A slice of containers is a `List Container`; the function that writes into the
  slice it was handed returns, next to its result, the contents of that slice after
  the call.
-/

namespace Conversion

/-- The entries of a non-nil Go `map[string]string`: an association list without
duplicate keys. -/
abbrev StrMap := AList (fun _ : String => String)

/-- Two entry lists are compared entry by entry. -/
instance instDecidableEqStrMap : DecidableEq StrMap :=
  fun a b => decidable_of_iff (a.entries = b.entries) AList.ext_iff.symm

/-- A Go `map[string]string`; `none` is the nil map. -/
abbrev GoMap := Option StrMap

/-- Indexing `m[k]` with the comma-ok form: `none` when the key is absent (always so
for the nil map). -/
def GoMap.get (m : GoMap) (k : String) : Option String :=
  match m with
  | none => none
  | some a => a.lookup k

/-- The entries visited by `for k, v := range m`; the nil map has none. -/
def GoMap.range (m : GoMap) : List (Sigma (fun _ : String => String)) :=
  match m with
  | none => []
  | some a => a.entries

/-- The prefix of the keys owned by the syncer (the literal in `CheckKVEquality`). -/
def reservedPrefix : String := "tenancy.x-k8s.io"

/-- Go `strings.HasPrefix s pre`. -/
def HasPrefix (s pre : String) : Bool := pre.data.isPrefixOf s.data

/-- The first loop of `CheckKVEquality`: keys of the virtual map, outside the reserved
prefix, that the physical map lacks or holds with another value. -/
def moreOrDiff (pKV vKV : GoMap) : StrMap :=
  vKV.range.foldl
    (fun acc e =>
      if HasPrefix e.1 reservedPrefix then acc
      else
        match pKV.get e.1 with
        | none => acc.insert e.1 e.2
        | some pv => if pv ≠ e.2 then acc.insert e.1 e.2 else acc)
    ∅

/-- The second loop of `CheckKVEquality`: keys of the physical map, outside the
reserved prefix, that the virtual map lacks. The stored value is the zero value of
the failed lookup. -/
def less (pKV vKV : GoMap) : StrMap :=
  pKV.range.foldl
    (fun acc e =>
      if HasPrefix e.1 reservedPrefix then acc
      else
        match vKV.get e.1 with
        | none => acc.insert e.1 ""
        | some _ => acc)
    ∅

/-- The map `updated` of `CheckKVEquality`: the physical entries whose key is not in
`ls`, then every entry of `md` written over them. -/
def mergeKV (pKV : GoMap) (md ls : StrMap) : StrMap :=
  md.entries.foldl (fun acc e => acc.insert e.1 e.2)
    (pKV.range.foldl (fun acc e => if e.1 ∈ ls then acc else acc.insert e.1 e.2) ∅)

/-- Go `CheckKVEquality`: `(nil, true)` when both difference maps are empty, otherwise
the merged map and `false`. -/
def CheckKVEquality (pKV vKV : GoMap) : GoMap × Bool :=
  let md := moreOrDiff pKV vKV
  let ls := less pKV vKV
  if md.entries.length = 0 ∧ ls.entries.length = 0 then (none, true)
  else (some (mergeKV pKV md ls), false)

/-- A non-nil map built by successive assignments `m[k] = v`, from an empty map. -/
def mkMap (kvs : List (String × String)) : GoMap :=
  some (kvs.foldl (fun acc kv => acc.insert kv.1 kv.2) ∅)


/-- Indexing `m[k]` in value position: the zero value `""` when the key is absent. -/
def GoMap.index (m : GoMap) (k : String) : String := (m.get k).getD ""

/-! ## Scalars -/

/-- Go `CheckInt64Equality` on two `*int64`. No arithmetic is done on the values, so
their 64-bit range plays no part. -/
def CheckInt64Equality (pObj vObj : Option Int) : Option Int × Bool :=
  match pObj, vObj with
  | none, none => (none, true)
  | some p, some v => (some v, decide (p = v))
  | _, some v => (some v, false)
  | _, none => (none, false)

/-! ## Object metadata -/

/-- The fields of `metav1.ObjectMeta` read or written by the reconciler, and some of the
fields it leaves alone (the remaining ones behave like these). -/
structure ObjectMeta where
  Name : String
  GenerateName : String
  Namespace : String
  Labels : GoMap
  Annotations : GoMap
  OwnerReferences : List String
  Finalizers : List String
  ClusterName : String
  ManagedFields : List String
deriving DecidableEq

/-- Go `CheckObjectMetaEquality`. `updatedObj` is nil (`none`) until the first difference
is found, when it becomes a deep copy of `pObj`. -/
def CheckObjectMetaEquality (pObj vObj : ObjectMeta) : Option ObjectMeta :=
  let updatedObj : Option ObjectMeta := none
  let updatedObj :=
    if pObj.GenerateName ≠ vObj.GenerateName then
      some { updatedObj.getD pObj with GenerateName := vObj.GenerateName }
    else updatedObj
  let labels := CheckKVEquality pObj.Labels vObj.Labels
  let updatedObj :=
    if labels.2 = false then some { updatedObj.getD pObj with Labels := labels.1 }
    else updatedObj
  let annotations := CheckKVEquality pObj.Annotations vObj.Annotations
  let updatedObj :=
    if annotations.2 = false then
      some { updatedObj.getD pObj with Annotations := annotations.1 }
    else updatedObj
  let updatedObj :=
    if pObj.ClusterName ≠ vObj.ClusterName then
      some { updatedObj.getD pObj with ClusterName := vObj.ClusterName }
    else updatedObj
  updatedObj

/-! ## Containers -/

/-- The fields of `v1.Container` read or written by the reconciler, and some of the
fields it leaves alone. -/
structure Container where
  Name : String
  Image : String
  Command : List String
  Args : List String
  WorkingDir : String
deriving DecidableEq

/-- The loop `for _, v := range cs { m[v.Name] = v.Image }` on a fresh map. -/
def nameImageMap (cs : List Container) : GoMap :=
  some (cs.foldl (fun acc v => acc.insert v.Name v.Image) ∅)

/-- One iteration of the last loop of `CheckContainersImageEquality`: the value held
by `pObj[i]` after the iteration that read `v` from it. -/
def patchImage (diff : GoMap) (v : Container) : Container :=
  if diff.index v.Name = v.Image then v
  else { v with Image := diff.index v.Name }

/-- What a call of `CheckContainersImageEquality` leaves behind: the returned slice
(`none` for `return nil`, `some l` for `return pObj` with the contents `l`) and the
contents of the slice passed as `pObj`, whose elements the function assigns to. -/
structure ContainersOutcome where
  ret : Option (List Container)
  pObj : List Container
deriving DecidableEq

/-- Go `CheckContainersImageEquality`. Iteration `i` of the last loop reads `pObj[i]`
and writes `pObj[i]` only, so the loop maps `patchImage` over the slice; the slice
returned is `pObj` itself. -/
def CheckContainersImageEquality (pObj vObj : List Container) : ContainersOutcome :=
  let pNameImageMap := nameImageMap pObj
  let vNameImageMap := nameImageMap vObj
  let r := CheckKVEquality pNameImageMap vNameImageMap
  if r.2 = true then { ret := none, pObj := pObj }
  else
    let pObj1 := pObj.map (patchImage r.1)
    { ret := some pObj1, pObj := pObj1 }

/-- Go `len` of a returned slice; the nil slice has length 0. -/
def sliceLen (s : Option (List Container)) : Nat :=
  match s with
  | none => 0
  | some l => l.length

/-! ## Pods -/

/-- The fields of `v1.PodSpec` read or written by the reconciler, and some of the
fields it leaves alone. -/
structure PodSpec where
  InitContainers : List Container
  Containers : List Container
  RestartPolicy : String
  ActiveDeadlineSeconds : Option Int
  NodeName : String
deriving DecidableEq

/-- What a call of `CheckPodSpecEquality` leaves behind: the returned pointer and the
physical spec afterwards (its container slices are handed to
`CheckContainersImageEquality`). -/
structure PodSpecOutcome where
  ret : Option PodSpec
  pObj : PodSpec
deriving DecidableEq

/-- Go `CheckPodSpecEquality`. `pObj.DeepCopy()` copies the physical spec as it is at
that moment, `p0`, `p1` or `p2` below. An assigned container slice is the physical
slice itself, whose contents are those of the outcome. -/
def CheckPodSpecEquality (pObj vObj : PodSpec) : PodSpecOutcome :=
  let p0 := pObj
  let updatedPodSpec : Option PodSpec := none
  let r := CheckInt64Equality p0.ActiveDeadlineSeconds vObj.ActiveDeadlineSeconds
  let updatedPodSpec :=
    if r.2 = false then some { updatedPodSpec.getD p0 with ActiveDeadlineSeconds := r.1 }
    else updatedPodSpec
  let c := CheckContainersImageEquality p0.Containers vObj.Containers
  let p1 := { p0 with Containers := c.pObj }
  let updatedPodSpec :=
    if sliceLen c.ret ≠ 0 then some { updatedPodSpec.getD p1 with Containers := c.pObj }
    else updatedPodSpec
  let ic := CheckContainersImageEquality p1.InitContainers vObj.InitContainers
  let p2 := { p1 with InitContainers := ic.pObj }
  let updatedPodSpec :=
    if sliceLen ic.ret ≠ 0 then
      some { updatedPodSpec.getD p2 with InitContainers := ic.pObj }
    else updatedPodSpec
  { ret := updatedPodSpec, pObj := p2 }

/-- The parts of `v1.Pod`: metadata, spec, and the status phase standing for the
status, which the reconciler leaves alone. -/
structure Pod where
  ObjectMeta : ObjectMeta
  Spec : PodSpec
  Phase : String
deriving DecidableEq

/-- What a call of `CheckPodEquality` leaves behind: the returned pointer and the
physical pod afterwards. -/
structure PodOutcome where
  ret : Option Pod
  pPod : Pod
deriving DecidableEq

/-- Go `CheckPodEquality`. -/
def CheckPodEquality (pPod vPod : Pod) : PodOutcome :=
  let updatedPod : Option Pod := none
  let updatedMeta := CheckObjectMetaEquality pPod.ObjectMeta vPod.ObjectMeta
  let updatedPod :=
    match updatedMeta with
    | some m => some { updatedPod.getD pPod with ObjectMeta := m }
    | none => updatedPod
  let s := CheckPodSpecEquality pPod.Spec vPod.Spec
  let pPod1 := { pPod with Spec := s.pObj }
  let updatedPod :=
    match s.ret with
    | some sp => some { updatedPod.getD pPod1 with Spec := sp }
    | none => updatedPod
  { ret := updatedPod, pPod := pPod1 }

/-! ## Plain and binary data maps -/

/-- Modelled from the spec: `equality.Semantic.DeepEqual` belongs to the library
k8s.io/apimachinery and is not part of the sources. On two `map[string]string` it is
plain structural equality with the nil and the empty map counted as equal: the maps have
the same number of entries and every entry of the first is an entry of the second. -/
def DeepEqualMap (a b : GoMap) : Bool :=
  decide (a.range.length = b.range.length) &&
    a.range.all (fun e => decide (b.get e.1 = some e.2))

/-- Go `CheckMapEquality`. -/
def CheckMapEquality (pObj vObj : GoMap) : GoMap × Bool :=
  if DeepEqualMap pObj vObj = true then (none, true)
  else
    match vObj with
    | none => (none, false)
    | some v => (some (v.entries.foldl (fun acc e => acc.insert e.1 e.2) ∅), false)

/-- A Go `[]byte`; `none` is the nil slice. -/
abbrev Bytes := Option (List (Fin 256))

/-- The entries of a non-nil Go `map[string][]byte`. -/
abbrev BinEntries := AList (fun _ : String => Bytes)

/-- Two entry lists are compared entry by entry. -/
instance instDecidableEqBinEntries : DecidableEq BinEntries :=
  fun a b => decidable_of_iff (a.entries = b.entries) AList.ext_iff.symm

/-- A Go `map[string][]byte`; `none` is the nil map. -/
abbrev BinMap := Option BinEntries

/-- Indexing `m[k]` with the comma-ok form. -/
def BinMap.get (m : BinMap) (k : String) : Option Bytes :=
  match m with
  | none => none
  | some a => a.lookup k

/-- The entries visited by `for k, v := range m`; the nil map has none. -/
def BinMap.range (m : BinMap) : List (Sigma (fun _ : String => Bytes)) :=
  match m with
  | none => []
  | some a => a.entries

/-- Modelled from the spec: `equality.Semantic.DeepEqual` on two `[]byte`, where the nil
and the empty slice are counted as equal. -/
def DeepEqualBytes (x y : Bytes) : Bool := decide (x.getD [] = y.getD [])

/-- Modelled from the spec: `equality.Semantic.DeepEqual` on two `map[string][]byte`,
where the nil and the empty map are counted as equal: the maps have the same number of
entries and every key of the first is a key of the second with a deep-equal value. -/
def DeepEqualBin (a b : BinMap) : Bool :=
  decide (a.range.length = b.range.length) &&
    a.range.all (fun e =>
      match b.get e.1 with
      | none => false
      | some w => DeepEqualBytes e.2 w)

/-- Go `CheckBinaryDataEquality`. The copy `arr` of a non-nil value has the bytes of the
value. -/
def CheckBinaryDataEquality (pObj vObj : BinMap) : BinMap × Bool :=
  if DeepEqualBin pObj vObj = true then (none, true)
  else
    match vObj with
    | none => (none, false)
    | some v =>
      (some (v.entries.foldl
        (fun acc e =>
          match e.2 with
          | none => acc.insert e.1 none
          | some arr => acc.insert e.1 (some arr))
        ∅), false)

/-! ## ConfigMaps, Secrets and Endpoints -/

/-- The parts of `v1.ConfigMap`. -/
structure ConfigMap where
  Kind : String
  APIVersion : String
  ObjectMeta : ObjectMeta
  Data : GoMap
  BinaryData : BinMap
deriving DecidableEq

/-- Go `CheckConfigMapEquality`. -/
def CheckConfigMapEquality (pObj vObj : ConfigMap) : Option ConfigMap :=
  let updated : Option ConfigMap := none
  let updatedMeta := CheckObjectMetaEquality pObj.ObjectMeta vObj.ObjectMeta
  let updated :=
    match updatedMeta with
    | some m => some { updated.getD pObj with ObjectMeta := m }
    | none => updated
  let d := CheckMapEquality pObj.Data vObj.Data
  let updated :=
    if d.2 = false then some { updated.getD pObj with Data := d.1 } else updated
  let b := CheckBinaryDataEquality pObj.BinaryData vObj.BinaryData
  let updated :=
    if b.2 = false then some { updated.getD pObj with BinaryData := b.1 } else updated
  updated

/-- Modelled from the spec: the constant `v1.SecretTypeServiceAccountToken` of the
library k8s.io/api, the type that marks a credential-token secret; its value is not in
the sources. -/
def SecretTypeServiceAccountToken : String := "kubernetes.io/service-account-token"

/-- The parts of `v1.Secret`; `Type_` is the field `Type`. -/
structure Secret where
  Kind : String
  APIVersion : String
  ObjectMeta : ObjectMeta
  Data : BinMap
  StringData : GoMap
  Type_ : String
deriving DecidableEq

/-- Go `CheckSecretEquality`. -/
def CheckSecretEquality (pObj vObj : Secret) : Option Secret :=
  let updated : Option Secret := none
  let updatedMeta := CheckObjectMetaEquality pObj.ObjectMeta vObj.ObjectMeta
  let updated :=
    match updatedMeta with
    | some m => some { updated.getD pObj with ObjectMeta := m }
    | none => updated
  if vObj.Type_ = SecretTypeServiceAccountToken then updated
  else
    let d := CheckMapEquality pObj.StringData vObj.StringData
    let updated :=
      if d.2 = false then some { updated.getD pObj with StringData := d.1 } else updated
    let b := CheckBinaryDataEquality pObj.Data vObj.Data
    let updated :=
      if b.2 = false then some { updated.getD pObj with Data := b.1 } else updated
    updated

/-- The parts of `v1.EndpointSubset`, with addresses and ports as plain values. -/
structure EndpointSubset where
  Addresses : List String
  NotReadyAddresses : List String
  Ports : List Int
deriving DecidableEq

/-- A Go `[]v1.EndpointSubset`; `none` is the nil slice. -/
abbrev Subsets := Option (List EndpointSubset)

/-- Modelled from the spec: `equality.Semantic.DeepEqual` on two subset slices, where the
nil and the empty slice are counted as equal and elements are compared in order. -/
def DeepEqualSubsets (a b : Subsets) : Bool := decide (a.getD [] = b.getD [])

/-- The parts of `v1.Endpoints`. -/
structure Endpoints where
  Kind : String
  APIVersion : String
  ObjectMeta : ObjectMeta
  Subsets : Subsets
deriving DecidableEq

/-- Go `CheckEndpointsEquality`. The deep copy of the virtual object has the subsets of
the virtual object. -/
def CheckEndpointsEquality (pObj vObj : Endpoints) : Option Endpoints :=
  let updated : Option Endpoints := none
  let updatedMeta := CheckObjectMetaEquality pObj.ObjectMeta vObj.ObjectMeta
  let updated :=
    match updatedMeta with
    | some m => some { updated.getD pObj with ObjectMeta := m }
    | none => updated
  let updated :=
    if DeepEqualSubsets pObj.Subsets vObj.Subsets = false then
      some { updated.getD pObj with Subsets := vObj.Subsets }
    else updated
  updated

/-! ## Example inputs -/

/-- A container with the given name and image and no other setting. -/
def mkContainer (name image : String) : Container :=
  { Name := name, Image := image, Command := [], Args := [], WorkingDir := "" }

/-- The physical containers of scenario C. -/
def scenarioC_P : List Container := [mkContainer "c" "v1"]

/-- The virtual containers of scenario C. -/
def scenarioC_V : List Container := [mkContainer "c" "v2"]

/-- A physical list with a sidecar container that the virtual list lacks. -/
def sidecar_P : List Container := [mkContainer "c" "v1", mkContainer "side" "s1"]

/-- The virtual list for `sidecar_P`, with a new image for `c`. -/
def sidecar_V : List Container := [mkContainer "c" "v2"]

/-- A physical list whose first container has settings of its own. -/
def shape_P : List Container :=
  [{ Name := "c", Image := "v1", Command := ["run"], Args := ["-v"], WorkingDir := "/srv" },
    mkContainer "d" "w1"]

/-- A virtual list with another image for `c` and a container `e` that `shape_P`
lacks. -/
def shape_V : List Container := [mkContainer "c" "v2", mkContainer "e" "x1"]

/-- The list `shape_P` with the image of `c` replaced and the image of `d` emptied. -/
def shape_R : List Container :=
  [{ Name := "c", Image := "v2", Command := ["run"], Args := ["-v"], WorkingDir := "/srv" },
    mkContainer "d" ""]

/-- Metadata without labels or annotations. -/
def plainMeta : ObjectMeta :=
  { Name := "web", GenerateName := "", Namespace := "default", Labels := none,
    Annotations := none, OwnerReferences := [], Finalizers := [], ClusterName := "",
    ManagedFields := [] }

/-- A pod with the given containers, no init container and no deadline. -/
def mkPod (cs : List Container) : Pod :=
  { ObjectMeta := plainMeta,
    Spec := { InitContainers := [], Containers := cs, RestartPolicy := "Always",
              ActiveDeadlineSeconds := none, NodeName := "node-1" },
    Phase := "Running" }

/-- Physical metadata with a syncer label and an owner, a finalizer and a managed
field of its own. -/
def metaP : ObjectMeta :=
  { Name := "web", GenerateName := "web-", Namespace := "tenant-a-default",
    Labels := mkMap [("app", "web"), ("tenancy.x-k8s.io/cluster", "tenant-a")],
    Annotations := mkMap [("note", "old")],
    OwnerReferences := ["super/owner"], Finalizers := ["super/finalizer"],
    ClusterName := "", ManagedFields := ["super-manager"] }

/-- Virtual metadata for `metaP` that differs in every field. -/
def metaV : ObjectMeta :=
  { Name := "web-v", GenerateName := "web2-", Namespace := "default",
    Labels := mkMap [("app", "web"), ("tier", "front")],
    Annotations := mkMap [("note", "old")],
    OwnerReferences := ["tenant/owner"], Finalizers := ["tenant/finalizer"],
    ClusterName := "tenant-a", ManagedFields := ["tenant-manager"] }

/-- A byte map with a reserved-prefix key and a key whose value is the nil slice. -/
def binV : BinMap :=
  some (((∅ : BinEntries).insert "tenancy.x-k8s.io/token" (some [1, 2])).insert "empty" none)

/-- A byte map with one entry. -/
def binP : BinMap := some ((∅ : BinEntries).insert "cert" (some [7]))

/-- A secret of the given type with the metadata and the data given. -/
def mkSecret (ty : String) (m : ObjectMeta) (d : BinMap) (sd : GoMap) : Secret :=
  { Kind := "Secret", APIVersion := "v1", ObjectMeta := m, Data := d, StringData := sd,
    Type_ := ty }

/-- A config map with the metadata `plainMeta` and the data given. -/
def mkConfigMap (d : GoMap) (b : BinMap) : ConfigMap :=
  { Kind := "ConfigMap", APIVersion := "v1", ObjectMeta := plainMeta, Data := d,
    BinaryData := b }

/-- An endpoints object with the metadata `plainMeta` and the subsets given. -/
def mkEndpoints (kind : String) (ss : Subsets) : Endpoints :=
  { Kind := kind, APIVersion := "v1", ObjectMeta := plainMeta, Subsets := ss }

/-! ## Lookup in maps built by a loop of assignments -/

theorem lookup_foldl_insert (c : (Sigma fun _ : String => String) → Bool)
    (f : (Sigma fun _ : String => String) → String)
    (step : StrMap → (Sigma fun _ : String => String) → StrMap)
    (hstep : ∀ acc e, step acc e = if c e then acc.insert e.1 (f e) else acc)
    (l : List (Sigma fun _ : String => String)) (nd : l.NodupKeys)
    (init : StrMap) (k : String) :
    (l.foldl step init).lookup k =
      match l.dlookup k with
      | some v => if c ⟨k, v⟩ then some (f ⟨k, v⟩) else init.lookup k
      | none => init.lookup k := by
  induction l generalizing init with
  | nil => simp
  | cons e t ih =>
    obtain ⟨ek, ev⟩ := e
    rw [List.foldl_cons, ih (List.nodupKeys_cons.1 nd).2]
    by_cases hk : k = ek
    · subst hk
      have hnot : k ∉ t.keys := (List.nodupKeys_cons.1 nd).1
      have hnone : t.dlookup k = none := List.dlookup_eq_none.2 hnot
      rw [hnone, List.dlookup_cons_eq, hstep]
      by_cases hc : c ⟨k, ev⟩ <;> simp [hc]
    · have hne : ek ≠ k := fun h => hk h.symm
      rw [List.dlookup_cons_ne _ _ hk, hstep]
      have hlk : (if c ⟨ek, ev⟩ = true then init.insert ek (f ⟨ek, ev⟩) else init).lookup k
          = init.lookup k := by
        by_cases hc : c ⟨ek, ev⟩ <;> simp [hc, AList.lookup_insert_ne hk]
      simp only [hlk]

theorem GoMap.range_nodupKeys (m : GoMap) : m.range.NodupKeys := by
  cases m with
  | none => exact List.nodupKeys_nil
  | some a => exact a.nodupKeys

theorem GoMap.dlookup_range (m : GoMap) (k : String) : m.range.dlookup k = m.get k := by
  cases m with
  | none => rfl
  | some a => rfl

/-- The pointwise content of `moreOrDiff`. -/
theorem lookup_moreOrDiff (pKV vKV : GoMap) (k : String) :
    (moreOrDiff pKV vKV).lookup k =
      match vKV.get k with
      | some v => if HasPrefix k reservedPrefix = false ∧ pKV.get k ≠ some v then some v else none
      | none => none := by
  unfold moreOrDiff
  rw [lookup_foldl_insert
    (fun e => decide (HasPrefix e.1 reservedPrefix = false ∧ pKV.get e.1 ≠ some e.2))
    (fun e => e.2) _ _ _ vKV.range_nodupKeys, GoMap.dlookup_range]
  · cases vKV.get k <;> simp
  · intro acc e
    by_cases hp : HasPrefix e.1 reservedPrefix = true
    · simp [hp]
    · cases hg : pKV.get e.1 with
      | none => simp [hp, hg]
      | some pv =>
        by_cases hv : pv = e.2 <;> simp [hp, hg, hv]

/-- The key set of `less`. -/
theorem lookup_less (pKV vKV : GoMap) (k : String) :
    (less pKV vKV).lookup k =
      match pKV.get k with
      | some _ => if HasPrefix k reservedPrefix = false ∧ vKV.get k = none then some "" else none
      | none => none := by
  unfold less
  rw [lookup_foldl_insert
    (fun e => decide (HasPrefix e.1 reservedPrefix = false ∧ vKV.get e.1 = none))
    (fun _ => "") _ _ _ pKV.range_nodupKeys, GoMap.dlookup_range]
  · cases pKV.get k <;> simp
  · intro acc e
    by_cases hp : HasPrefix e.1 reservedPrefix = true
    · simp [hp]
    · cases hg : vKV.get e.1 <;> simp [hp, hg]

theorem mem_less (pKV vKV : GoMap) (k : String) :
    k ∈ less pKV vKV ↔
      (pKV.get k).isSome = true ∧ HasPrefix k reservedPrefix = false ∧ vKV.get k = none := by
  rw [← AList.lookup_isSome, lookup_less]
  cases hp : pKV.get k with
  | none => simp
  | some pv =>
    by_cases h : HasPrefix k reservedPrefix = false ∧ vKV.get k = none
    · simp [h]
    · simp only [h, if_false]
      simp

/-- The pointwise content of the merged map, for arbitrary difference maps. -/
theorem lookup_mergeKV (pKV : GoMap) (md ls : StrMap) (k : String) :
    (mergeKV pKV md ls).lookup k =
      match md.lookup k with
      | some v => some v
      | none => if k ∈ ls then none else pKV.get k := by
  unfold mergeKV
  rw [lookup_foldl_insert (fun _ => true) (fun e => e.2) _ _ _ md.nodupKeys]
  · change (match md.lookup k with | some v => _ | none => _) = _
    cases md.lookup k with
    | some v => simp
    | none =>
      simp only
      rw [lookup_foldl_insert (fun e => decide (e.1 ∉ ls)) (fun e => e.2) _ _ _
        pKV.range_nodupKeys, GoMap.dlookup_range]
      · cases pKV.get k with
        | none => simp
        | some pv => by_cases hk : k ∈ ls <;> simp [hk]
      · intro acc e
        by_cases hk : e.1 ∈ ls <;> simp [hk]
  · intro acc e
    simp

/-- The merged map of `CheckKVEquality`, key by key: a reserved key is taken from the
physical map, any other key from the virtual map. -/
theorem lookup_merged (pKV vKV : GoMap) (k : String) :
    (mergeKV pKV (moreOrDiff pKV vKV) (less pKV vKV)).lookup k =
      if HasPrefix k reservedPrefix = true then pKV.get k else vKV.get k := by
  rw [lookup_mergeKV, lookup_moreOrDiff]
  by_cases hp : HasPrefix k reservedPrefix = true
  · have hl : k ∉ less pKV vKV := by
      rw [mem_less]; simp [hp]
    cases vKV.get k <;> simp [hp, hl]
  · have hp2 : HasPrefix k reservedPrefix = false := by simpa using hp
    cases hv : vKV.get k with
    | none =>
      cases hpk : pKV.get k with
      | none => simp [hp2]
      | some pv =>
        have hl : k ∈ less pKV vKV := by
          rw [mem_less]; simp [hp2, hv, hpk]
        simp [hp2, hl]
    | some v =>
      by_cases hd : pKV.get k = some v
      · have hl : k ∉ less pKV vKV := by
          rw [mem_less]; simp [hp2, hv]
        simp [hp2, hd, hl]
      · simp [hp2, hd]

theorem entries_length_eq_zero_iff (m : StrMap) :
    m.entries.length = 0 ↔ ∀ k, m.lookup k = none := by
  constructor
  · intro h k
    have he : m.entries = [] := List.length_eq_zero.1 h
    simp [AList.lookup, he]
  · intro h
    cases hm : m.entries with
    | nil => rfl
    | cons e t =>
      have hk := h e.1
      rw [AList.lookup, hm] at hk
      obtain ⟨ek, ev⟩ := e
      simp [List.dlookup_cons_eq] at hk

/-- Both difference maps are empty exactly when the two maps agree on every key outside
the reserved prefix. -/
theorem noDiff_iff (pKV vKV : GoMap) :
    ((moreOrDiff pKV vKV).entries.length = 0 ∧ (less pKV vKV).entries.length = 0) ↔
      ∀ k, HasPrefix k reservedPrefix = false → pKV.get k = vKV.get k := by
  rw [entries_length_eq_zero_iff, entries_length_eq_zero_iff]
  constructor
  · rintro ⟨hmd, hls⟩ k hk
    have h1 := hmd k
    have h2 := hls k
    rw [lookup_moreOrDiff] at h1
    rw [lookup_less] at h2
    cases hv : vKV.get k with
    | none =>
      cases hp : pKV.get k with
      | none => rfl
      | some pv => simp [hv, hp, hk] at h2
    | some v =>
      by_cases hd : pKV.get k = some v
      · exact hd
      · simp [hv, hk, hd] at h1
  · intro h
    constructor
    · intro k
      rw [lookup_moreOrDiff]
      cases hv : vKV.get k with
      | none => rfl
      | some v =>
        by_cases hk : HasPrefix k reservedPrefix = false
        · have := h k hk
          simp [this, hv]
        · simp [hk]
    · intro k
      rw [lookup_less]
      cases hp : pKV.get k with
      | none => rfl
      | some pv =>
        by_cases hk : HasPrefix k reservedPrefix = false
        · have := h k hk
          rw [hp] at this
          simp [← this]
        · simp [hk]

theorem CheckKVEquality_of_agree (pKV vKV : GoMap)
    (h : ∀ k, HasPrefix k reservedPrefix = false → pKV.get k = vKV.get k) :
    CheckKVEquality pKV vKV = (none, true) := by
  unfold CheckKVEquality
  simp only
  rw [if_pos ((noDiff_iff pKV vKV).2 h)]

theorem CheckKVEquality_of_not_agree (pKV vKV : GoMap)
    (h : ¬ ∀ k, HasPrefix k reservedPrefix = false → pKV.get k = vKV.get k) :
    CheckKVEquality pKV vKV =
      (some (mergeKV pKV (moreOrDiff pKV vKV) (less pKV vKV)), false) := by
  unfold CheckKVEquality
  simp only
  rw [if_neg (fun hc => h ((noDiff_iff pKV vKV).1 hc))]

/-- The two possible shapes of the result of `CheckKVEquality`. -/
theorem CheckKVEquality_shape (pKV vKV : GoMap) :
    CheckKVEquality pKV vKV = (none, true) ∨
      CheckKVEquality pKV vKV =
        (some (mergeKV pKV (moreOrDiff pKV vKV) (less pKV vKV)), false) := by
  by_cases h : ∀ k, HasPrefix k reservedPrefix = false → pKV.get k = vKV.get k
  · exact Or.inl (CheckKVEquality_of_agree pKV vKV h)
  · exact Or.inr (CheckKVEquality_of_not_agree pKV vKV h)

theorem CheckKVEquality_eq_some (pKV vKV : GoMap) (m : StrMap) (b : Bool)
    (h : CheckKVEquality pKV vKV = (some m, b)) :
    m = mergeKV pKV (moreOrDiff pKV vKV) (less pKV vKV) ∧ b = false := by
  rcases CheckKVEquality_shape pKV vKV with h1 | h1
  · rw [h1] at h
    simp at h
  · rw [h1] at h
    simp at h
    exact ⟨h.1.symm, h.2⟩

theorem CheckKVEquality_snd_false (pKV vKV : GoMap)
    (h : (CheckKVEquality pKV vKV).2 = false) :
    CheckKVEquality pKV vKV =
      (some (mergeKV pKV (moreOrDiff pKV vKV) (less pKV vKV)), false) := by
  rcases CheckKVEquality_shape pKV vKV with h1 | h1
  · rw [h1] at h
    simp at h
  · exact h1

theorem foldl_insert_lookup_of_not_mem (kvs : List (String × String)) (init : StrMap)
    (k : String) (h : ∀ kv ∈ kvs, k ≠ kv.1) :
    (kvs.foldl (fun acc kv => acc.insert kv.1 kv.2) init).lookup k = init.lookup k := by
  induction kvs generalizing init with
  | nil => rfl
  | cons kv t ih =>
    rw [List.foldl_cons, ih _ (fun x hx => h x (List.mem_cons_of_mem _ hx)),
      AList.lookup_insert_ne (h kv (List.mem_cons_self _ _))]

/-- A key that is never assigned is absent from the map built by `mkMap`. -/
theorem mkMap_get_none (kvs : List (String × String)) (k : String)
    (h : ∀ kv ∈ kvs, k ≠ kv.1) : (mkMap kvs).get k = none := by
  unfold mkMap GoMap.get
  simp only
  rw [foldl_insert_lookup_of_not_mem kvs ∅ k h]
  exact AList.lookup_empty k

/-! ## The key-value reconciler -/

/-- C1: when `CheckKVEquality P V` reports not-equal, the merged map `M` is non-nil, it
is `P` without the keys of `less` and with the entries of `moreOrDiff` written over it,
and key by key a reserved key is in `M` exactly as in `P` and any other key exactly as
in `V`; so `M` has the entries of `V` when neither map has a reserved key. -/
theorem CheckKVEquality_merged (P V : GoMap) (h : (CheckKVEquality P V).2 = false) :
    ∃ M : StrMap, (CheckKVEquality P V).1 = some M ∧
      (∀ k, M.lookup k =
        match (moreOrDiff P V).lookup k with
        | some v => some v
        | none => if k ∈ less P V then none else P.get k) ∧
      (∀ k, M.lookup k = if HasPrefix k reservedPrefix = true then P.get k else V.get k) ∧
      ((∀ k, HasPrefix k reservedPrefix = true → P.get k = none ∧ V.get k = none) →
        ∀ k, M.lookup k = V.get k) := by
  refine ⟨mergeKV P (moreOrDiff P V) (less P V), ?_, ?_, ?_, ?_⟩
  · rw [CheckKVEquality_snd_false P V h]
  · exact fun k => lookup_mergeKV P _ _ k
  · exact fun k => lookup_merged P V k
  · intro hres k
    rw [lookup_merged]
    by_cases hk : HasPrefix k reservedPrefix = true
    · rw [if_pos hk, (hres k hk).1, (hres k hk).2]
    · rw [if_neg hk]

/-- Scenario B: `P = {a:1, b:2}` and `V = {a:9}` are reported not-equal and the merged
map has exactly the entries of `{a:9}`. -/
theorem CheckKVEquality_merged_scenarioB :
    (CheckKVEquality (mkMap [("a", "1"), ("b", "2")]) (mkMap [("a", "9")])).2 = false ∧
    ∃ M : StrMap,
      (CheckKVEquality (mkMap [("a", "1"), ("b", "2")]) (mkMap [("a", "9")])).1 = some M ∧
      ∀ k, M.lookup k = (mkMap [("a", "9")]).get k := by
  refine ⟨by decide, ?_⟩
  obtain ⟨M, hM, -, -, hall⟩ :=
    CheckKVEquality_merged (mkMap [("a", "1"), ("b", "2")]) (mkMap [("a", "9")]) (by decide)
  refine ⟨M, hM, hall ?_⟩
  intro k hk
  have ha : k ≠ "a" := by
    rintro rfl
    revert hk
    decide
  have hb : k ≠ "b" := by
    rintro rfl
    revert hk
    decide
  constructor
  · exact mkMap_get_none _ k (by simp [ha, hb])
  · exact mkMap_get_none _ k (by simp [ha])

/-- C2: `CheckKVEquality P V` is `(nil, true)` exactly when `P` and `V` agree on every
key outside the reserved prefix, and is otherwise a non-nil map with `false`; a virtual
map that differs from the physical one by a reserved key only is reported equal. -/
theorem CheckKVEquality_equal_iff (P V : GoMap) :
    (CheckKVEquality P V = (none, true) ↔
      ∀ k, HasPrefix k reservedPrefix = false → P.get k = V.get k) ∧
    (CheckKVEquality P V = (none, true) ∨
      ∃ M : StrMap, CheckKVEquality P V = (some M, false)) ∧
    CheckKVEquality (mkMap [("a", "1")])
      (mkMap [("a", "1"), ("tenancy.x-k8s.io/uid", "x")]) = (none, true) := by
  refine ⟨⟨?_, CheckKVEquality_of_agree P V⟩, ?_, by decide⟩
  · intro h
    by_contra hne
    rw [CheckKVEquality_of_not_agree P V hne] at h
    simp at h
  · rcases CheckKVEquality_shape P V with h | h
    · exact Or.inl h
    · exact Or.inr ⟨_, h⟩

/-- C3: a reserved key of the physical map is in the merged map with the physical
value, whatever the virtual map holds for it. -/
theorem CheckKVEquality_reserved_preserved (P V : GoMap) (M : StrMap) (b : Bool)
    (h : CheckKVEquality P V = (some M, b)) (k v : String)
    (hk : HasPrefix k reservedPrefix = true) (hp : P.get k = some v) :
    M.lookup k = some v := by
  obtain ⟨hM, -⟩ := CheckKVEquality_eq_some P V M b h
  rw [hM, lookup_merged, if_pos hk, hp]

/-- A physical map with a reserved key that the virtual map holds with another value:
the merged map keeps the physical value. -/
theorem CheckKVEquality_reserved_preserved_witness :
    ∃ M : StrMap,
      CheckKVEquality (mkMap [("tenancy.x-k8s.io/uid", "p"), ("a", "1")])
        (mkMap [("tenancy.x-k8s.io/uid", "x"), ("a", "2")]) = (some M, false) ∧
      M.lookup "tenancy.x-k8s.io/uid" = some "p" :=
  ⟨mergeKV (mkMap [("tenancy.x-k8s.io/uid", "p"), ("a", "1")])
      (moreOrDiff (mkMap [("tenancy.x-k8s.io/uid", "p"), ("a", "1")])
        (mkMap [("tenancy.x-k8s.io/uid", "x"), ("a", "2")]))
      (less (mkMap [("tenancy.x-k8s.io/uid", "p"), ("a", "1")])
        (mkMap [("tenancy.x-k8s.io/uid", "x"), ("a", "2")])),
    rfl,
    CheckKVEquality_reserved_preserved (mkMap [("tenancy.x-k8s.io/uid", "p"), ("a", "1")])
      (mkMap [("tenancy.x-k8s.io/uid", "x"), ("a", "2")]) _ false rfl
      "tenancy.x-k8s.io/uid" "p" (by decide) (by decide)⟩

/-- C4: a reserved key that only the virtual map has is absent from the merged map, and
two virtual maps that differ in reserved keys only give the same result: the same
verdict, a nil map in the same cases, and the same entry for every key. -/
theorem CheckKVEquality_reserved_excluded (P V V' : GoMap)
    (hagree : ∀ k, HasPrefix k reservedPrefix = false → V.get k = V'.get k) :
    (∀ (M : StrMap) (b : Bool), CheckKVEquality P V = (some M, b) →
      ∀ k, HasPrefix k reservedPrefix = true → (V.get k).isSome = true →
        P.get k = none → M.lookup k = none) ∧
    (CheckKVEquality P V').2 = (CheckKVEquality P V).2 ∧
    (CheckKVEquality P V').1.isSome = (CheckKVEquality P V).1.isSome ∧
    ∀ k, (CheckKVEquality P V').1.get k = (CheckKVEquality P V).1.get k := by
  refine ⟨?_, ?_⟩
  · intro M b h k hk _ hp
    obtain ⟨hM, -⟩ := CheckKVEquality_eq_some P V M b h
    rw [hM, lookup_merged, if_pos hk, hp]
  · by_cases hPV : ∀ k, HasPrefix k reservedPrefix = false → P.get k = V.get k
    · have hPV' : ∀ k, HasPrefix k reservedPrefix = false → P.get k = V'.get k :=
        fun k hk => (hPV k hk).trans (hagree k hk)
      rw [CheckKVEquality_of_agree P V hPV, CheckKVEquality_of_agree P V' hPV']
      exact ⟨rfl, rfl, fun _ => rfl⟩
    · have hPV' : ¬ ∀ k, HasPrefix k reservedPrefix = false → P.get k = V'.get k :=
        fun hc => hPV (fun k hk => (hc k hk).trans (hagree k hk).symm)
      rw [CheckKVEquality_of_not_agree P V hPV, CheckKVEquality_of_not_agree P V' hPV']
      refine ⟨rfl, rfl, fun k => ?_⟩
      change (mergeKV P (moreOrDiff P V') (less P V')).lookup k =
        (mergeKV P (moreOrDiff P V) (less P V)).lookup k
      rw [lookup_merged, lookup_merged]
      by_cases hk : HasPrefix k reservedPrefix = true
      · rw [if_pos hk, if_pos hk]
      · rw [if_neg hk, if_neg hk]
        exact (hagree k (by simpa using hk)).symm

/-- Adding the reserved key `tenancy.x-k8s.io/uid` to the virtual map `{a:2}` changes
nothing in the result against the physical map `{a:1}`, and the key is not merged. -/
theorem CheckKVEquality_reserved_excluded_witness :
    (∀ (M : StrMap) (b : Bool),
      CheckKVEquality (mkMap [("a", "1")])
        (mkMap [("a", "2"), ("tenancy.x-k8s.io/uid", "x")]) = (some M, b) →
      ∀ k, HasPrefix k reservedPrefix = true →
        ((mkMap [("a", "2"), ("tenancy.x-k8s.io/uid", "x")]).get k).isSome = true →
        (mkMap [("a", "1")]).get k = none → M.lookup k = none) ∧
    (CheckKVEquality (mkMap [("a", "1")]) (mkMap [("a", "2")])).2 =
      (CheckKVEquality (mkMap [("a", "1")])
        (mkMap [("a", "2"), ("tenancy.x-k8s.io/uid", "x")])).2 ∧
    (CheckKVEquality (mkMap [("a", "1")]) (mkMap [("a", "2")])).1.isSome =
      (CheckKVEquality (mkMap [("a", "1")])
        (mkMap [("a", "2"), ("tenancy.x-k8s.io/uid", "x")])).1.isSome ∧
    ∀ k, (CheckKVEquality (mkMap [("a", "1")]) (mkMap [("a", "2")])).1.get k =
      (CheckKVEquality (mkMap [("a", "1")])
        (mkMap [("a", "2"), ("tenancy.x-k8s.io/uid", "x")])).1.get k := by
  refine CheckKVEquality_reserved_excluded (mkMap [("a", "1")])
    (mkMap [("a", "2"), ("tenancy.x-k8s.io/uid", "x")]) (mkMap [("a", "2")]) ?_
  intro k hk
  have hu : k ≠ "tenancy.x-k8s.io/uid" := by
    rintro rfl
    revert hk
    decide
  simp [mkMap, GoMap.get, AList.lookup_insert_ne hu]

/-! ## The scalar reconciler -/

/-- C10: `CheckInt64Equality P V` returns `V` as its value, absent or present as `V`
is, and the verdict is `true` exactly when both are absent or both are present with
the same value; a present `P` against an absent `V` gives `(absent, false)`. -/
theorem CheckInt64Equality_spec (P V : Option Int) :
    (CheckInt64Equality P V).1 = V ∧
    ((CheckInt64Equality P V).2 = true ↔
      (P = none ∧ V = none) ∨ ∃ x, P = some x ∧ V = some x) ∧
    ∀ p : Int, CheckInt64Equality (some p) none = (none, false) := by
  refine ⟨?_, ?_, fun _ => rfl⟩
  · cases P <;> cases V <;> rfl
  · cases P <;> cases V <;> simp [CheckInt64Equality, eq_comm]

/-! ## The container reconciler -/

theorem foldl_nameImage_lookup_of_not_mem (cs : List Container) (init : StrMap)
    (k : String) (h : ∀ c ∈ cs, c.Name ≠ k) :
    (cs.foldl (fun acc v => acc.insert v.Name v.Image) init).lookup k = init.lookup k := by
  induction cs generalizing init with
  | nil => rfl
  | cons c t ih =>
    rw [List.foldl_cons, ih _ (fun x hx => h x (List.mem_cons_of_mem _ hx)),
      AList.lookup_insert_ne (h c (List.mem_cons_self _ _)).symm]

theorem foldl_nameImage_lookup_of_mem (cs : List Container) (init : StrMap)
    (nd : (cs.map Container.Name).Nodup) (c : Container) (hc : c ∈ cs) :
    (cs.foldl (fun acc v => acc.insert v.Name v.Image) init).lookup c.Name =
      some c.Image := by
  induction cs generalizing init with
  | nil => cases hc
  | cons d t ih =>
    rw [List.map_cons, List.nodup_cons] at nd
    rw [List.foldl_cons]
    rcases List.mem_cons.1 hc with rfl | hct
    · rw [foldl_nameImage_lookup_of_not_mem t _ c.Name, AList.lookup_insert]
      intro x hx hxc
      exact nd.1 (hxc ▸ List.mem_map_of_mem Container.Name hx)
    · exact ih _ nd.2 hct

/-- With unique names, the name-to-image map holds the image of every container of
the list under its name. -/
theorem nameImageMap_get_of_mem (cs : List Container) (nd : (cs.map Container.Name).Nodup)
    (c : Container) (hc : c ∈ cs) : (nameImageMap cs).get c.Name = some c.Image :=
  foldl_nameImage_lookup_of_mem cs ∅ nd c hc

/-- The loop body keeps every field other than the image. -/
theorem patchImage_eq (diff : GoMap) (v : Container) :
    patchImage diff v = { v with Image := (patchImage diff v).Image } := by
  unfold patchImage
  by_cases h : diff.index v.Name = v.Image <;> simp [h]

theorem patchImage_image (diff : GoMap) (v : Container) :
    (patchImage diff v).Image = diff.index v.Name := by
  unfold patchImage
  by_cases h : diff.index v.Name = v.Image
  · rw [if_pos h, h]
  · rw [if_neg h]

/-- The slice returned by `CheckContainersImageEquality`, when it is not nil. -/
theorem CheckContainersImageEquality_ret_some (P V R : List Container)
    (h : (CheckContainersImageEquality P V).ret = some R) :
    R = P.map (patchImage (CheckKVEquality (nameImageMap P) (nameImageMap V)).1) := by
  unfold CheckContainersImageEquality at h
  simp only at h
  by_cases hb : (CheckKVEquality (nameImageMap P) (nameImageMap V)).2 = true
  · rw [if_pos hb] at h
    cases h
  · rw [if_neg hb] at h
    exact (Option.some.inj h).symm

/-- C9: a non-nil result of `CheckContainersImageEquality` has the length of `P` and at
every index the container of `P` with at most its image changed, so no name outside
`P` occurs in it. -/
theorem CheckContainersImageEquality_shape (P V R : List Container)
    (h : (CheckContainersImageEquality P V).ret = some R) :
    R.length = P.length ∧
    (∀ (i : Nat) (hp : i < P.length) (hr : i < R.length),
      R[i].Name = P[i].Name ∧ R[i] = { P[i] with Image := R[i].Image }) ∧
    (∀ v ∈ V, (∀ p ∈ P, p.Name ≠ v.Name) → ∀ r ∈ R, r.Name ≠ v.Name ∧ r ≠ v) := by
  have hR := CheckContainersImageEquality_ret_some P V R h
  subst hR
  refine ⟨List.length_map _ _, ?_, ?_⟩
  · intro i hp hr
    rw [List.getElem_map]
    constructor
    · rw [patchImage_eq]
    · exact patchImage_eq _ _
  · intro v _ hv r hr
    obtain ⟨p, hpP, rfl⟩ := List.mem_map.1 hr
    have hn : (patchImage (CheckKVEquality (nameImageMap P) (nameImageMap V)).1 p).Name
        = p.Name := by rw [patchImage_eq]
    constructor
    · rw [hn]
      exact hv p hpP
    · intro heq
      rw [heq] at hn
      exact hv p hpP hn.symm

/-- The result for `shape_P` against `shape_V` is `shape_R`: two entries, the names and
settings of `shape_P`, and no entry for the container `e` of `shape_V`. -/
theorem CheckContainersImageEquality_shape_witness :
    (CheckContainersImageEquality shape_P shape_V).ret = some shape_R ∧
    shape_R.length = shape_P.length ∧
    (∀ (i : Nat) (_ : i < shape_P.length) (hr : i < shape_R.length),
      shape_R[i].Name = shape_P[i].Name ∧
      shape_R[i] = { shape_P[i] with Image := shape_R[i].Image }) ∧
    (∀ v ∈ shape_V, (∀ p ∈ shape_P, p.Name ≠ v.Name) →
      ∀ r ∈ shape_R, r.Name ≠ v.Name ∧ r ≠ v) :=
  ⟨by decide, CheckContainersImageEquality_shape shape_P shape_V shape_R (by decide)⟩

/-- C8: with unique names, no reserved name in `P`, every name of `P` in `V` and some
image of `P` different in `V`, `CheckContainersImageEquality P V` returns at every
index the container of `P` with the image that `V` has for its name. -/
theorem CheckContainersImageEquality_images (P V : List Container)
    (hP : (P.map Container.Name).Nodup) (hV : (V.map Container.Name).Nodup)
    (hres : ∀ p ∈ P, HasPrefix p.Name reservedPrefix = false)
    (hsub : ∀ p ∈ P, ∃ v ∈ V, v.Name = p.Name)
    (hdiff : ∃ p ∈ P, ∃ v ∈ V, v.Name = p.Name ∧ v.Image ≠ p.Image) :
    ∃ R : List Container, (CheckContainersImageEquality P V).ret = some R ∧
      R.length = P.length ∧
      ∀ (i : Nat) (hp : i < P.length) (hr : i < R.length),
        ∃ v ∈ V, v.Name = P[i].Name ∧ R[i] = { P[i] with Image := v.Image } := by
  have hne : ¬ ∀ k, HasPrefix k reservedPrefix = false →
      (nameImageMap P).get k = (nameImageMap V).get k := by
    intro hall
    obtain ⟨p, hpP, v, hvV, hname, himg⟩ := hdiff
    have h1 := hall p.Name (hres p hpP)
    rw [nameImageMap_get_of_mem P hP p hpP, ← hname,
      nameImageMap_get_of_mem V hV v hvV] at h1
    exact himg (Option.some.inj h1).symm
  have hkv := CheckKVEquality_of_not_agree _ _ hne
  refine ⟨P.map (patchImage (CheckKVEquality (nameImageMap P) (nameImageMap V)).1),
    ?_, List.length_map _ _, ?_⟩
  · unfold CheckContainersImageEquality
    simp only
    rw [if_neg (by rw [hkv]; simp)]
  · intro i hp hr
    obtain ⟨v, hvV, hname⟩ := hsub P[i] (List.getElem_mem _)
    refine ⟨v, hvV, hname, ?_⟩
    rw [List.getElem_map]
    have himg : (patchImage (CheckKVEquality (nameImageMap P) (nameImageMap V)).1 P[i]).Image
        = v.Image := by
      rw [patchImage_image, hkv]
      unfold GoMap.index
      change ((mergeKV _ _ _).lookup P[i].Name).getD "" = v.Image
      rw [lookup_merged, if_neg (by rw [hres _ (List.getElem_mem _)]; simp), ← hname,
        nameImageMap_get_of_mem V hV v hvV]
      rfl
    rw [patchImage_eq, himg]

/-- Scenario C: `P = [{c, v1}]` and `V = [{c, v2}]` give `[{c, v2}]`. -/
theorem CheckContainersImageEquality_scenarioC :
    (CheckContainersImageEquality scenarioC_P scenarioC_V).ret = some [mkContainer "c" "v2"] ∧
    ∃ R : List Container, (CheckContainersImageEquality scenarioC_P scenarioC_V).ret = some R ∧
      R.length = scenarioC_P.length ∧
      ∀ (i : Nat) (hp : i < scenarioC_P.length) (hr : i < R.length),
        ∃ v ∈ scenarioC_V, v.Name = scenarioC_P[i].Name ∧
          R[i] = { scenarioC_P[i] with Image := v.Image } :=
  ⟨by decide,
    CheckContainersImageEquality_images scenarioC_P scenarioC_V
      (by decide) (by decide) (by decide) (by decide) (by decide)⟩

/-! ## Where the container reconciler departs from its contract -/

/-- C6: the entry `side` of `sidecar_P`, whose name does not occur in `sidecar_V`, is
returned with an empty image instead of its image `s1`. -/
theorem CheckContainersImageEquality_sidecar_image_lost :
    (CheckContainersImageEquality sidecar_P sidecar_V).ret =
      some [mkContainer "c" "v2", mkContainer "side" ""] ∧
    sidecar_P = [mkContainer "c" "v1", mkContainer "side" "s1"] ∧
    (∀ v ∈ sidecar_V, v.Name ≠ "side") := by
  decide

/-- C7: after `CheckContainersImageEquality scenarioC_P scenarioC_V` the physical slice
holds the new image, and so does the physical spec after `CheckPodSpecEquality` and
the physical pod after `CheckPodEquality`. -/
theorem CheckContainersImageEquality_writes_input :
    (CheckContainersImageEquality scenarioC_P scenarioC_V).pObj = [mkContainer "c" "v2"] ∧
    (CheckContainersImageEquality scenarioC_P scenarioC_V).pObj ≠ scenarioC_P ∧
    (CheckPodSpecEquality (mkPod scenarioC_P).Spec (mkPod scenarioC_V).Spec).pObj.Containers
      = [mkContainer "c" "v2"] ∧
    (CheckPodEquality (mkPod scenarioC_P) (mkPod scenarioC_V)).pPod.Spec.Containers
      = [mkContainer "c" "v2"] ∧
    (mkPod scenarioC_P).Spec.Containers = [mkContainer "c" "v1"] := by
  decide

/-- C5: for the pod with the containers `sidecar_P` against the virtual pod with the
container `c` alone, the first call returns a pod, and the call on that pod returns a
pod again; the same happens when the virtual pod has a container more than the
physical one, where the pod returned is the physical pod itself. -/
theorem CheckPodEquality_not_idempotent :
    (CheckPodEquality
      ((CheckPodEquality (mkPod sidecar_P) (mkPod [mkContainer "c" "v1"])).ret.getD
        (mkPod sidecar_P))
      (mkPod [mkContainer "c" "v1"])).ret ≠ none ∧
    (CheckPodEquality (mkPod sidecar_P) (mkPod [mkContainer "c" "v1"])).ret =
      some (mkPod [mkContainer "c" "v1", mkContainer "side" ""]) ∧
    (CheckPodEquality (mkPod [mkContainer "c" "v1", mkContainer "side" ""])
      (mkPod [mkContainer "c" "v1"])).ret =
      some (mkPod [mkContainer "c" "v1", mkContainer "side" ""]) ∧
    (CheckPodEquality (mkPod [mkContainer "c" "v1"])
      (mkPod [mkContainer "c" "v1", mkContainer "d" "v2"])).ret =
      some (mkPod [mkContainer "c" "v1"]) := by
  decide

/-! ## The metadata reconciler -/

/-- The result of `CheckObjectMetaEquality` in closed form. -/
theorem CheckObjectMetaEquality_eq (P V : ObjectMeta) :
    CheckObjectMetaEquality P V =
      if P.GenerateName = V.GenerateName ∧ (CheckKVEquality P.Labels V.Labels).2 = true ∧
          (CheckKVEquality P.Annotations V.Annotations).2 = true ∧
          P.ClusterName = V.ClusterName then none
      else
        some { P with
          GenerateName := V.GenerateName
          Labels :=
            if (CheckKVEquality P.Labels V.Labels).2 = true then P.Labels
            else (CheckKVEquality P.Labels V.Labels).1
          Annotations :=
            if (CheckKVEquality P.Annotations V.Annotations).2 = true then P.Annotations
            else (CheckKVEquality P.Annotations V.Annotations).1
          ClusterName := V.ClusterName } := by
  obtain ⟨n, g, ns, l, a, o, f, c, m⟩ := P
  unfold CheckObjectMetaEquality
  by_cases h1 : g = V.GenerateName <;>
    by_cases h2 : (CheckKVEquality l V.Labels).2 = true <;>
    by_cases h3 : (CheckKVEquality a V.Annotations).2 = true <;>
    by_cases h4 : c = V.ClusterName <;>
    simp [h1, h2, h3, h4]

/-- A second comparison of a merged map with the same virtual map reports equal. -/
theorem CheckKVEquality_second_pass (P V M : GoMap)
    (h : CheckKVEquality P V = (M, false)) : CheckKVEquality M V = (none, true) := by
  rcases CheckKVEquality_shape P V with h1 | h1
  · rw [h1] at h
    simp at h
  · rw [h1] at h
    have hM : M = some (mergeKV P (moreOrDiff P V) (less P V)) := by
      have := congrArg Prod.fst h
      exact this.symm
    subst hM
    apply CheckKVEquality_of_agree
    intro k hk
    change (mergeKV P (moreOrDiff P V) (less P V)).lookup k = V.get k
    rw [lookup_merged, if_neg (by rw [hk]; simp)]

/-- The map held by the updated metadata compares equal to the virtual map. -/
theorem CheckKVEquality_after_update (P V : GoMap) :
    (CheckKVEquality
      (if (CheckKVEquality P V).2 = true then P else (CheckKVEquality P V).1) V).2 = true := by
  by_cases h : (CheckKVEquality P V).2 = true
  · rw [if_pos h]
    exact h
  · rw [if_neg h]
    have hf : (CheckKVEquality P V).2 = false := by simpa using h
    have hp : CheckKVEquality P V = ((CheckKVEquality P V).1, false) :=
      Prod.ext rfl hf
    rw [CheckKVEquality_second_pass P V _ hp]

/-- C11: `CheckObjectMetaEquality P V` is nil exactly when the generate names and the
cluster names are equal and `CheckKVEquality` reports the labels and the annotations
equal; a non-nil result has the generate name and the cluster name of `V`, and for
labels and annotations the merged map of a comparison that reported not-equal. -/
theorem CheckObjectMetaEquality_spec (P V : ObjectMeta) :
    (CheckObjectMetaEquality P V = none ↔
      P.GenerateName = V.GenerateName ∧ P.ClusterName = V.ClusterName ∧
      (CheckKVEquality P.Labels V.Labels).2 = true ∧
      (CheckKVEquality P.Annotations V.Annotations).2 = true) ∧
    (∀ R, CheckObjectMetaEquality P V = some R →
      R.GenerateName = V.GenerateName ∧ R.ClusterName = V.ClusterName ∧
      ((CheckKVEquality P.Labels V.Labels).2 = false →
        R.Labels = (CheckKVEquality P.Labels V.Labels).1) ∧
      ((CheckKVEquality P.Annotations V.Annotations).2 = false →
        R.Annotations = (CheckKVEquality P.Annotations V.Annotations).1)) := by
  rw [CheckObjectMetaEquality_eq]
  constructor
  · constructor
    · intro h
      by_contra hne
      rw [if_neg (fun hc => hne ⟨hc.1, hc.2.2.2, hc.2.1, hc.2.2.1⟩)] at h
      cases h
    · intro h
      rw [if_pos ⟨h.1, h.2.2.1, h.2.2.2, h.2.1⟩]
  · intro R hR
    split at hR
    · cases hR
    · cases hR
      refine ⟨rfl, rfl, ?_, ?_⟩
      · intro hl
        simp [hl]
      · intro ha
        simp [ha]

/-- For `metaP` against `metaV` the result is not nil and has the generate name and
the cluster name of `metaV`. -/
theorem CheckObjectMetaEquality_spec_witness :
    ∃ R, CheckObjectMetaEquality metaP metaV = some R ∧
      R.GenerateName = "web2-" ∧ R.ClusterName = "tenant-a" ∧
      R.Labels.get "tier" = some "front" ∧
      R.Labels.get "tenancy.x-k8s.io/cluster" = some "tenant-a" := by
  cases hR : CheckObjectMetaEquality metaP metaV with
  | none =>
    have h := ((CheckObjectMetaEquality_spec metaP metaV).1.1 hR).1
    revert h
    decide
  | some R =>
    obtain ⟨hg, hc, hl, -⟩ := (CheckObjectMetaEquality_spec metaP metaV).2 R hR
    refine ⟨R, rfl, hg, hc, ?_, ?_⟩
    · rw [hl (by decide)]
      decide
    · rw [hl (by decide)]
      decide

/-- C12: in a non-nil result of `CheckObjectMetaEquality P V` the name, the namespace,
the owner references, the finalizers and the managed fields are those of `P`, and so
are the labels and the annotations whose comparison reported equal. -/
theorem CheckObjectMetaEquality_frame (P V R : ObjectMeta)
    (h : CheckObjectMetaEquality P V = some R) :
    R.Name = P.Name ∧ R.Namespace = P.Namespace ∧
    R.OwnerReferences = P.OwnerReferences ∧ R.Finalizers = P.Finalizers ∧
    R.ManagedFields = P.ManagedFields ∧
    ((CheckKVEquality P.Labels V.Labels).2 = true → R.Labels = P.Labels) ∧
    ((CheckKVEquality P.Annotations V.Annotations).2 = true →
      R.Annotations = P.Annotations) := by
  rw [CheckObjectMetaEquality_eq] at h
  split at h
  · cases h
  · cases h
    refine ⟨rfl, rfl, rfl, rfl, rfl, ?_, ?_⟩
    · intro hl
      simp [hl]
    · intro ha
      simp [ha]

/-- For `metaP` against `metaV`, which differs in every field, the result keeps the
name, namespace, owner, finalizer, managed field and annotations of `metaP`. -/
theorem CheckObjectMetaEquality_frame_witness :
    ∃ R, CheckObjectMetaEquality metaP metaV = some R ∧
      R.Name = "web" ∧ R.Namespace = "tenant-a-default" ∧
      R.OwnerReferences = ["super/owner"] ∧ R.Finalizers = ["super/finalizer"] ∧
      R.ManagedFields = ["super-manager"] ∧ R.Annotations = metaP.Annotations := by
  cases hR : CheckObjectMetaEquality metaP metaV with
  | none =>
    revert hR
    decide
  | some R =>
    obtain ⟨h1, h2, h3, h4, h5, -, h7⟩ := CheckObjectMetaEquality_frame metaP metaV R hR
    exact ⟨R, rfl, h1, h2, h3, h4, h5, h7 (by decide)⟩

/-- C13: a merged map compared again with the same virtual map is reported equal, and
a non-nil result of `CheckObjectMetaEquality` compared again with the same virtual
metadata gives nil. -/
theorem reconcile_idempotent :
    (∀ P V M : GoMap, CheckKVEquality P V = (M, false) →
      CheckKVEquality M V = (none, true)) ∧
    (∀ P V R : ObjectMeta, CheckObjectMetaEquality P V = some R →
      CheckObjectMetaEquality R V = none) := by
  refine ⟨CheckKVEquality_second_pass, ?_⟩
  intro P V R h
  rw [CheckObjectMetaEquality_eq] at h
  split at h
  · cases h
  · cases h
    rw [CheckObjectMetaEquality_eq, if_pos]
    exact ⟨rfl, CheckKVEquality_after_update _ _, CheckKVEquality_after_update _ _, rfl⟩

/-- The labels of `metaP` merged with those of `metaV` compare equal to the labels of
`metaV`, and the metadata updated from `metaV` needs no further update. -/
theorem reconcile_idempotent_witness :
    CheckKVEquality (CheckKVEquality metaP.Labels metaV.Labels).1 metaV.Labels
      = (none, true) ∧
    ∃ R, CheckObjectMetaEquality metaP metaV = some R ∧
      CheckObjectMetaEquality R metaV = none := by
  constructor
  · exact reconcile_idempotent.1 metaP.Labels metaV.Labels _ rfl
  · cases hR : CheckObjectMetaEquality metaP metaV with
    | none =>
      revert hR
      decide
    | some R => exact ⟨R, rfl, reconcile_idempotent.2 metaP metaV R hR⟩

/-! ## An object compared with itself -/

theorem CheckKVEquality_self (P : GoMap) : CheckKVEquality P P = (none, true) :=
  CheckKVEquality_of_agree P P (fun _ _ => rfl)

theorem CheckObjectMetaEquality_self (X : ObjectMeta) : CheckObjectMetaEquality X X = none := by
  rw [CheckObjectMetaEquality_eq, if_pos]
  exact ⟨rfl, by rw [CheckKVEquality_self], by rw [CheckKVEquality_self], rfl⟩

theorem CheckInt64Equality_self (a : Option Int) : CheckInt64Equality a a = (a, true) := by
  cases a <;> simp [CheckInt64Equality]

theorem CheckContainersImageEquality_self (P : List Container) :
    CheckContainersImageEquality P P = { ret := none, pObj := P } := by
  unfold CheckContainersImageEquality
  simp only
  rw [if_pos (by rw [CheckKVEquality_self])]

theorem CheckPodSpecEquality_self (X : PodSpec) :
    CheckPodSpecEquality X X = { ret := none, pObj := X } := by
  unfold CheckPodSpecEquality
  simp [CheckInt64Equality_self, CheckContainersImageEquality_self, sliceLen]

theorem DeepEqualMap_self (a : GoMap) : DeepEqualMap a a = true := by
  unfold DeepEqualMap
  simp only [decide_True, Bool.true_and, List.all_eq_true, decide_eq_true_eq]
  intro e he
  cases a with
  | none => cases he
  | some al =>
    obtain ⟨k, v⟩ := e
    exact AList.mem_lookup_iff.2 he

theorem DeepEqualBytes_self (x : Bytes) : DeepEqualBytes x x = true := by
  simp [DeepEqualBytes]

theorem DeepEqualBin_self (a : BinMap) : DeepEqualBin a a = true := by
  unfold DeepEqualBin
  simp only [decide_True, Bool.true_and, List.all_eq_true]
  intro e he
  cases a with
  | none => cases he
  | some al =>
    obtain ⟨k, v⟩ := e
    have hl : al.lookup k = some v := AList.mem_lookup_iff.2 he
    simp only [BinMap.get, hl]
    exact DeepEqualBytes_self v

theorem CheckMapEquality_self (a : GoMap) : CheckMapEquality a a = (none, true) := by
  unfold CheckMapEquality
  rw [if_pos (DeepEqualMap_self a)]

theorem CheckBinaryDataEquality_self (a : BinMap) :
    CheckBinaryDataEquality a a = (none, true) := by
  unfold CheckBinaryDataEquality
  rw [if_pos (DeepEqualBin_self a)]

/-- C14: a pod, a config map, a secret and an endpoints object compared with
themselves give nil, whatever their labels, annotations and data hold. -/
theorem reconcile_self (X : Pod) (C : ConfigMap) (S : Secret) (E : Endpoints) :
    (CheckPodEquality X X).ret = none ∧ CheckConfigMapEquality C C = none ∧
    CheckSecretEquality S S = none ∧ CheckEndpointsEquality E E = none := by
  refine ⟨?_, ?_, ?_, ?_⟩
  · unfold CheckPodEquality
    simp [CheckObjectMetaEquality_self, CheckPodSpecEquality_self]
  · unfold CheckConfigMapEquality
    simp [CheckObjectMetaEquality_self, CheckMapEquality_self, CheckBinaryDataEquality_self]
  · unfold CheckSecretEquality
    simp [CheckObjectMetaEquality_self, CheckMapEquality_self, CheckBinaryDataEquality_self]
  · unfold CheckEndpointsEquality
    simp [CheckObjectMetaEquality_self, DeepEqualSubsets]

/-! ## Data maps, secrets and endpoints -/

theorem lookup_foldl_copy {β : Type} (g : β → β)
    (step : AList (fun _ : String => β) → (Sigma fun _ : String => β) →
      AList (fun _ : String => β))
    (hstep : ∀ acc e, step acc e = acc.insert e.1 (g e.2))
    (l : List (Sigma fun _ : String => β)) (nd : l.NodupKeys)
    (init : AList (fun _ : String => β)) (k : String) :
    (l.foldl step init).lookup k =
      match l.dlookup k with
      | some v => some (g v)
      | none => init.lookup k := by
  induction l generalizing init with
  | nil => simp
  | cons e t ih =>
    obtain ⟨ek, ev⟩ := e
    rw [List.foldl_cons, ih (List.nodupKeys_cons.1 nd).2, hstep]
    by_cases hk : k = ek
    · subst hk
      have hnone : t.dlookup k = none :=
        List.dlookup_eq_none.2 (List.nodupKeys_cons.1 nd).1
      rw [hnone, List.dlookup_cons_eq]
      simp
    · rw [List.dlookup_cons_ne _ _ hk, AList.lookup_insert_ne hk]

/-- The copy loop of `CheckMapEquality` gives a map with the entries of its source. -/
theorem lookup_copy_str (v : StrMap) (k : String) :
    (v.entries.foldl (fun acc e => acc.insert e.1 e.2) (∅ : StrMap)).lookup k
      = v.lookup k := by
  have h := lookup_foldl_copy id (fun (acc : StrMap) e => acc.insert e.1 e.2)
    (fun _ _ => rfl) v.entries v.nodupKeys ∅ k
  rw [h]
  unfold AList.lookup
  cases List.dlookup k v.entries <;> simp

/-- The copy loop of `CheckBinaryDataEquality` gives a map with the entries of its
source, nil values included. -/
theorem lookup_copy_bin (v : BinEntries) (k : String) :
    (v.entries.foldl
      (fun acc e =>
        match e.2 with
        | none => acc.insert e.1 none
        | some arr => acc.insert e.1 (some arr))
      (∅ : BinEntries)).lookup k = v.lookup k := by
  have h := lookup_foldl_copy id
    (fun (acc : BinEntries) e =>
      match e.2 with
      | none => acc.insert e.1 none
      | some arr => acc.insert e.1 (some arr))
    (by
      intro acc e
      obtain ⟨ek, ev⟩ := e
      cases ev <;> rfl)
    v.entries v.nodupKeys ∅ k
  rw [h]
  unfold AList.lookup
  cases List.dlookup k v.entries <;> simp

/-- C15: for a virtual secret of the service-account-token type, `CheckSecretEquality`
gives nil exactly when the metadata comparison gives nil, and a non-nil result has the
data and the string data of `P`. -/
theorem CheckSecretEquality_token (P V : Secret)
    (ht : V.Type_ = SecretTypeServiceAccountToken) :
    (CheckSecretEquality P V = none ↔
      CheckObjectMetaEquality P.ObjectMeta V.ObjectMeta = none) ∧
    ∀ R, CheckSecretEquality P V = some R →
      R.Data = P.Data ∧ R.StringData = P.StringData := by
  unfold CheckSecretEquality
  simp only [ht, if_true]
  cases CheckObjectMetaEquality P.ObjectMeta V.ObjectMeta with
  | none => simp
  | some m =>
    simp only [Option.getD_none]
    refine ⟨by simp, ?_⟩
    intro R hR
    cases hR
    exact ⟨rfl, rfl⟩

/-- Scenario D: two token secrets with the same metadata and different data and string
data give nil; with different metadata the result keeps the data of the physical
secret. -/
theorem CheckSecretEquality_token_witness :
    CheckSecretEquality (mkSecret SecretTypeServiceAccountToken plainMeta binP none)
      (mkSecret SecretTypeServiceAccountToken plainMeta binV (mkMap [("k", "v")])) = none ∧
    ∀ R, CheckSecretEquality (mkSecret "Opaque" metaP binP none)
      (mkSecret SecretTypeServiceAccountToken metaV binV (mkMap [("k", "v")])) = some R →
      R.Data = binP ∧ R.StringData = none :=
  ⟨(CheckSecretEquality_token
      (mkSecret SecretTypeServiceAccountToken plainMeta binP none)
      (mkSecret SecretTypeServiceAccountToken plainMeta binV (mkMap [("k", "v")]))
      rfl).1.2 (by decide),
    (CheckSecretEquality_token (mkSecret "Opaque" metaP binP none)
      (mkSecret SecretTypeServiceAccountToken metaV binV (mkMap [("k", "v")])) rfl).2⟩

/-- C16: when the subsets are not deep-equal, `CheckEndpointsEquality P V` gives an
object with the subsets of `V` and the kind and version of `P`; when they are deep-equal
and the metadata comparison gives nil, it gives nil. -/
theorem CheckEndpointsEquality_subsets (P V : Endpoints) :
    (DeepEqualSubsets P.Subsets V.Subsets = false →
      ∃ R, CheckEndpointsEquality P V = some R ∧ R.Subsets = V.Subsets ∧
        R.Kind = P.Kind ∧ R.APIVersion = P.APIVersion) ∧
    (DeepEqualSubsets P.Subsets V.Subsets = true →
      CheckObjectMetaEquality P.ObjectMeta V.ObjectMeta = none →
      CheckEndpointsEquality P V = none) := by
  unfold CheckEndpointsEquality
  constructor
  · intro h
    simp only [h, if_true]
    cases CheckObjectMetaEquality P.ObjectMeta V.ObjectMeta <;> simp
  · intro h hm
    simp [h, hm]

/-- Scenario E: physical subsets with two addresses against virtual subsets with
one other address give an object with the virtual subsets alone. -/
theorem CheckEndpointsEquality_subsets_witness :
    ∃ R, CheckEndpointsEquality
        (mkEndpoints "Endpoints"
          (some [{ Addresses := ["10.0.0.1", "10.0.0.2"], NotReadyAddresses := [],
                   Ports := [80] }]))
        (mkEndpoints "EndpointsV"
          (some [{ Addresses := ["10.1.0.9"], NotReadyAddresses := [], Ports := [8080] }]))
        = some R ∧
      R.Subsets =
        some [{ Addresses := ["10.1.0.9"], NotReadyAddresses := [], Ports := [8080] }] ∧
      R.Kind = "Endpoints" ∧ R.APIVersion = "v1" :=
  (CheckEndpointsEquality_subsets
    (mkEndpoints "Endpoints"
      (some [{ Addresses := ["10.0.0.1", "10.0.0.2"], NotReadyAddresses := [],
               Ports := [80] }]))
    (mkEndpoints "EndpointsV"
      (some [{ Addresses := ["10.1.0.9"], NotReadyAddresses := [], Ports := [8080] }]))).1
    (by decide)

/-- C17: `CheckBinaryDataEquality P V` is `(nil, true)` when the maps are deep-equal,
`(nil, false)` when they are not and `V` is nil, and otherwise a map with exactly the
entries of `V`, nil values included, and `false`; no key is filtered. -/
theorem CheckBinaryDataEquality_spec (P V : BinMap) :
    (DeepEqualBin P V = true → CheckBinaryDataEquality P V = (none, true)) ∧
    (DeepEqualBin P V = false → V = none → CheckBinaryDataEquality P V = (none, false)) ∧
    (DeepEqualBin P V = false → ∀ v : BinEntries, V = some v →
      ∃ M : BinEntries, CheckBinaryDataEquality P V = (some M, false) ∧
        ∀ k, M.lookup k = v.lookup k) := by
  unfold CheckBinaryDataEquality
  refine ⟨?_, ?_, ?_⟩
  · intro h
    rw [if_pos h]
  · intro h hV
    subst hV
    simp [h]
  · intro h v hV
    subst hV
    simp only [h, if_false]
    exact ⟨_, rfl, lookup_copy_bin v⟩

/-- For `binP` against `binV` the result holds the reserved-prefix key of `binV` with
its bytes, the key `empty` with a nil value, and not the key `cert` of `binP`. -/
theorem CheckBinaryDataEquality_spec_witness :
    ∃ M : BinEntries, CheckBinaryDataEquality binP binV = (some M, false) ∧
      M.lookup "tenancy.x-k8s.io/token" = some (some [1, 2]) ∧
      M.lookup "empty" = some none ∧ M.lookup "cert" = none := by
  obtain ⟨M, hM, hk⟩ :=
    (CheckBinaryDataEquality_spec binP binV).2.2 (by decide) _ rfl
  refine ⟨M, hM, ?_, ?_, ?_⟩
  · rw [hk]
    decide
  · rw [hk]
    decide
  · rw [hk]
    decide

/-- C19: when the data of `V` is not nil and not deep-equal to the data of `P`,
`CheckConfigMapEquality P V` gives an object whose data is a non-nil map with exactly
the entries of the data of `V`, reserved-prefix keys included. -/
theorem CheckConfigMapEquality_data (P V : ConfigMap) (v : StrMap)
    (hv : V.Data = some v) (hne : DeepEqualMap P.Data V.Data = false) :
    ∃ (R : ConfigMap) (M : StrMap), CheckConfigMapEquality P V = some R ∧
      R.Data = some M ∧ ∀ k, M.lookup k = v.lookup k := by
  have hd : CheckMapEquality P.Data V.Data =
      (some (v.entries.foldl (fun acc e => acc.insert e.1 e.2) ∅), false) := by
    unfold CheckMapEquality
    rw [if_neg (by rw [hne]; simp), hv]
  unfold CheckConfigMapEquality
  simp only [hd, if_true]
  by_cases hb : (CheckBinaryDataEquality P.BinaryData V.BinaryData).2 = false
  · simp only [hb, if_true]
    exact ⟨_, _, rfl, rfl, lookup_copy_str v⟩
  · simp only [hb, if_false]
    exact ⟨_, _, rfl, rfl, lookup_copy_str v⟩

/-- Physical data with a reserved-prefix key and a plain key against virtual data with
another reserved-prefix key: the result has the virtual key and neither physical key. -/
theorem CheckConfigMapEquality_data_witness :
    ∃ (R : ConfigMap) (M : StrMap),
      CheckConfigMapEquality
        (mkConfigMap (mkMap [("tenancy.x-k8s.io/p", "1"), ("a", "2")]) none)
        (mkConfigMap (mkMap [("tenancy.x-k8s.io/v", "3")]) none) = some R ∧
      R.Data = some M ∧ M.lookup "tenancy.x-k8s.io/v" = some "3" ∧
      M.lookup "tenancy.x-k8s.io/p" = none ∧ M.lookup "a" = none := by
  obtain ⟨R, M, hR, hM, hk⟩ :=
    CheckConfigMapEquality_data
      (mkConfigMap (mkMap [("tenancy.x-k8s.io/p", "1"), ("a", "2")]) none)
      (mkConfigMap (mkMap [("tenancy.x-k8s.io/v", "3")]) none) _ rfl (by decide)
  refine ⟨R, M, hR, hM, ?_, ?_, ?_⟩
  · rw [hk]
    decide
  · rw [hk]
    decide
  · rw [hk]
    decide

/-! ## A nil payload from the virtual side -/

theorem DeepEqualBin_nil_right (a : BinMap) (h : a.range ≠ []) :
    DeepEqualBin a none = false := by
  unfold DeepEqualBin
  have hl : ¬ a.range.length = (BinMap.range none).length := by
    change ¬ a.range.length = 0
    rw [List.length_eq_zero]
    exact h
  simp [hl]

theorem CheckBinaryDataEquality_nil_right (a : BinMap) (h : a.range ≠ []) :
    CheckBinaryDataEquality a none = (none, false) := by
  unfold CheckBinaryDataEquality
  rw [if_neg (by rw [DeepEqualBin_nil_right a h]; simp)]

/-- C18, as the code has it: when the physical binary data is not empty and the virtual
binary data is nil, `CheckConfigMapEquality` gives an object whose binary data is nil;
likewise `CheckSecretEquality` for the data of a secret that is not a token secret. -/
theorem reconcile_nil_payload :
    (∀ P V : ConfigMap, P.BinaryData.range ≠ [] → V.BinaryData = none →
      ∃ R, CheckConfigMapEquality P V = some R ∧ R.BinaryData = none) ∧
    (∀ P V : Secret, V.Type_ ≠ SecretTypeServiceAccountToken → P.Data.range ≠ [] →
      V.Data = none → ∃ R, CheckSecretEquality P V = some R ∧ R.Data = none) := by
  constructor
  · intro P V hP hV
    unfold CheckConfigMapEquality
    simp only [hV, CheckBinaryDataEquality_nil_right _ hP, if_true]
    exact ⟨_, rfl, rfl⟩
  · intro P V ht hP hV
    unfold CheckSecretEquality
    simp only [hV, CheckBinaryDataEquality_nil_right _ hP, if_true, if_neg ht]
    exact ⟨_, rfl, rfl⟩

/-- A config map and an opaque secret with the data `binP` against ones without data:
both results have nil data. -/
theorem reconcile_nil_payload_witness :
    (∃ R, CheckConfigMapEquality (mkConfigMap none binP) (mkConfigMap none none) = some R ∧
      R.BinaryData = none) ∧
    (∃ R, CheckSecretEquality (mkSecret "Opaque" plainMeta binP none)
      (mkSecret "Opaque" plainMeta none none) = some R ∧ R.Data = none) :=
  ⟨reconcile_nil_payload.1 (mkConfigMap none binP) (mkConfigMap none none)
      (by simp [mkConfigMap, binP, BinMap.range]) rfl,
    reconcile_nil_payload.2 (mkSecret "Opaque" plainMeta binP none)
      (mkSecret "Opaque" plainMeta none none) (by decide)
      (by simp [mkSecret, binP, BinMap.range]) rfl⟩

/-- C18 fails as stated: the config map with the binary data `binP` against one with nil
binary data gives an object whose binary data is nil, not `binP`; so does the opaque
secret with the data `binP`. -/
theorem reconcile_nil_payload_overwrites :
    (mkConfigMap none binP).BinaryData.range.length = 1 ∧
    (mkConfigMap none none).BinaryData = none ∧
    (CheckConfigMapEquality (mkConfigMap none binP) (mkConfigMap none none)).map
      ConfigMap.BinaryData = some none ∧
    (mkConfigMap none binP).BinaryData ≠ none ∧
    (CheckSecretEquality (mkSecret "Opaque" plainMeta binP none)
      (mkSecret "Opaque" plainMeta none none)).map Secret.Data = some none := by
  decide

/-! ## The pod spec reconciler -/

theorem sliceLen_ret_eq_zero_iff (P V : List Container) :
    sliceLen (CheckContainersImageEquality P V).ret = 0 ↔
      P = [] ∨ (CheckKVEquality (nameImageMap P) (nameImageMap V)).2 = true := by
  unfold CheckContainersImageEquality
  simp only
  by_cases h : (CheckKVEquality (nameImageMap P) (nameImageMap V)).2 = true
  · simp [h, sliceLen]
  · simp [h, sliceLen]

theorem CheckPodSpecEquality_ret_none_iff (P V : PodSpec) :
    (CheckPodSpecEquality P V).ret = none ↔
      (CheckInt64Equality P.ActiveDeadlineSeconds V.ActiveDeadlineSeconds).2 = true ∧
      sliceLen (CheckContainersImageEquality P.Containers V.Containers).ret = 0 ∧
      sliceLen (CheckContainersImageEquality P.InitContainers V.InitContainers).ret = 0 := by
  unfold CheckPodSpecEquality
  simp only
  by_cases h1 : (CheckInt64Equality P.ActiveDeadlineSeconds V.ActiveDeadlineSeconds).2 = true <;>
    by_cases h2 : sliceLen (CheckContainersImageEquality P.Containers V.Containers).ret = 0 <;>
    by_cases h3 :
      sliceLen (CheckContainersImageEquality P.InitContainers V.InitContainers).ret = 0 <;>
    simp [h1, h2, h3]

/-- A virtual list that holds every container of the physical list, name and image,
and a container under a name outside the reserved prefix that the physical list lacks:
the comparison reports a difference and the slice returned is the physical list as it
was. -/
theorem CheckContainersImageEquality_superset (P V : List Container)
    (hP : (P.map Container.Name).Nodup) (hV : (V.map Container.Name).Nodup)
    (hsub : ∀ p ∈ P, ∃ v ∈ V, v.Name = p.Name ∧ v.Image = p.Image)
    (hex : ∃ e ∈ V, HasPrefix e.Name reservedPrefix = false ∧ ∀ p ∈ P, p.Name ≠ e.Name) :
    CheckContainersImageEquality P V = { ret := some P, pObj := P } := by
  obtain ⟨e, heV, hres, heP⟩ := hex
  have hpe : (nameImageMap P).get e.Name = none := by
    change (P.foldl (fun acc v => acc.insert v.Name v.Image) (∅ : StrMap)).lookup e.Name = none
    rw [foldl_nameImage_lookup_of_not_mem P ∅ e.Name heP]
    exact AList.lookup_empty _
  have hve : (nameImageMap V).get e.Name = some e.Image :=
    nameImageMap_get_of_mem V hV e heV
  have hne : ¬ ∀ k, HasPrefix k reservedPrefix = false →
      (nameImageMap P).get k = (nameImageMap V).get k := by
    intro hall
    have h1 := hall e.Name hres
    rw [hpe, hve] at h1
    cases h1
  have hkv := CheckKVEquality_of_not_agree _ _ hne
  have hmap : P.map (patchImage (CheckKVEquality (nameImageMap P) (nameImageMap V)).1) = P := by
    rw [hkv]
    have hid : ∀ p ∈ P, patchImage (some (mergeKV (nameImageMap P)
        (moreOrDiff (nameImageMap P) (nameImageMap V))
        (less (nameImageMap P) (nameImageMap V)))) p = id p := by
      intro p hp
      unfold patchImage
      rw [if_pos]
      · rfl
      · unfold GoMap.index
        change ((mergeKV _ _ _).lookup p.Name).getD "" = p.Image
        rw [lookup_merged]
        by_cases hr : HasPrefix p.Name reservedPrefix = true
        · rw [if_pos hr, nameImageMap_get_of_mem P hP p hp]
          rfl
        · obtain ⟨v, hvV, hname, himg⟩ := hsub p hp
          rw [if_neg hr, ← hname, nameImageMap_get_of_mem V hV v hvV, himg]
          rfl
    rw [List.map_congr_left hid, List.map_id]
  unfold CheckContainersImageEquality
  simp only
  rw [if_neg (by rw [hkv]; simp), hmap]

/-- A virtual list that is the physical list with one more container at any position,
under a name outside the reserved prefix and with unique names. -/
theorem CheckContainersImageEquality_insert (l₁ l₂ : List Container) (e : Container)
    (nd : ((l₁ ++ e :: l₂).map Container.Name).Nodup)
    (hres : HasPrefix e.Name reservedPrefix = false) :
    CheckContainersImageEquality (l₁ ++ l₂) (l₁ ++ e :: l₂) =
      { ret := some (l₁ ++ l₂), pObj := l₁ ++ l₂ } := by
  have hsl : (l₁ ++ l₂).Sublist (l₁ ++ e :: l₂) :=
    (List.sublist_cons_self e l₂).append_left l₁
  have h := nd
  rw [List.map_append, List.map_cons, List.nodup_middle, List.nodup_cons,
    ← List.map_append] at h
  refine CheckContainersImageEquality_superset _ _ h.2 nd ?_ ?_
  · intro p hp
    exact ⟨p, hsl.subset hp, rfl, rfl⟩
  · refine ⟨e, by simp, hres, ?_⟩
    intro p hp heq
    exact h.1 (heq ▸ List.mem_map_of_mem Container.Name hp)

/-- C20, as the code has it: `CheckPodSpecEquality P V` gives nil exactly when
`CheckInt64Equality` reports the deadlines equal and, for the containers and for the
init containers, the physical list is empty or `CheckKVEquality` reports the
name-to-image maps equal; so a virtual spec with the deadline of `P` and the lists of
`P` but for one more container, at any position of the containers or of the init
containers, under a name outside the reserved prefix and with unique names in that
list, over a non-empty physical list gives the non-nil spec `P`. -/
theorem CheckPodSpecEquality_nil_iff (P V : PodSpec) :
    ((CheckPodSpecEquality P V).ret = none ↔
      (CheckInt64Equality P.ActiveDeadlineSeconds V.ActiveDeadlineSeconds).2 = true ∧
      (P.Containers = [] ∨
        (CheckKVEquality (nameImageMap P.Containers) (nameImageMap V.Containers)).2 = true) ∧
      (P.InitContainers = [] ∨
        (CheckKVEquality (nameImageMap P.InitContainers)
          (nameImageMap V.InitContainers)).2 = true)) ∧
    (∀ (l₁ l₂ : List Container) (e : Container),
      P.Containers = l₁ ++ l₂ → V.Containers = l₁ ++ e :: l₂ → P.Containers ≠ [] →
      (V.Containers.map Container.Name).Nodup → HasPrefix e.Name reservedPrefix = false →
      V.ActiveDeadlineSeconds = P.ActiveDeadlineSeconds →
      V.InitContainers = P.InitContainers →
      (CheckPodSpecEquality P V).ret = some P) ∧
    (∀ (l₁ l₂ : List Container) (e : Container),
      P.InitContainers = l₁ ++ l₂ → V.InitContainers = l₁ ++ e :: l₂ →
      P.InitContainers ≠ [] →
      (V.InitContainers.map Container.Name).Nodup →
      HasPrefix e.Name reservedPrefix = false →
      V.ActiveDeadlineSeconds = P.ActiveDeadlineSeconds →
      V.Containers = P.Containers →
      (CheckPodSpecEquality P V).ret = some P) := by
  refine ⟨?_, ?_, ?_⟩
  · rw [CheckPodSpecEquality_ret_none_iff, sliceLen_ret_eq_zero_iff, sliceLen_ret_eq_zero_iff]
  · intro l₁ l₂ e hP hV hne nd hres hd hi
    obtain ⟨pic, pc, prp, pads, pnn⟩ := P
    obtain ⟨vic, vc, vrp, vads, vnn⟩ := V
    simp only at hP hV hne nd hd hi
    subst hP hV hd hi
    have hlen : ¬ (l₁ ++ l₂).length = 0 := fun h => hne (List.length_eq_zero.1 h)
    unfold CheckPodSpecEquality
    simp only [CheckInt64Equality_self, CheckContainersImageEquality_self,
      CheckContainersImageEquality_insert l₁ l₂ e nd hres, sliceLen]
    simp [hlen]
    intro h1 h2
    exact hne (by rw [h1, h2]; rfl)
  · intro l₁ l₂ e hP hV hne nd hres hd hc
    obtain ⟨pic, pc, prp, pads, pnn⟩ := P
    obtain ⟨vic, vc, vrp, vads, vnn⟩ := V
    simp only at hP hV hne nd hd hc
    subst hP hV hd hc
    have hlen : ¬ (l₁ ++ l₂).length = 0 := fun h => hne (List.length_eq_zero.1 h)
    unfold CheckPodSpecEquality
    simp only [CheckInt64Equality_self, CheckContainersImageEquality_self,
      CheckContainersImageEquality_insert l₁ l₂ e nd hres, sliceLen]
    simp [hlen]
    intro h1 h2
    exact hne (by rw [h1, h2]; rfl)

/-- The spec with the containers `c` and `d` against the same spec with the container
`x` between them gives the physical spec itself, and so does the spec with the init
container `setup` against the same spec with the init container `probe` before it. -/
theorem CheckPodSpecEquality_nil_iff_witness :
    (CheckPodSpecEquality (mkPod [mkContainer "c" "v1", mkContainer "d" "w1"]).Spec
      (mkPod [mkContainer "c" "v1", mkContainer "x" "v2", mkContainer "d" "w1"]).Spec).ret =
      some (mkPod [mkContainer "c" "v1", mkContainer "d" "w1"]).Spec ∧
    (CheckPodSpecEquality
      { (mkPod [mkContainer "c" "v1"]).Spec with InitContainers := [mkContainer "setup" "s1"] }
      { (mkPod [mkContainer "c" "v1"]).Spec with
        InitContainers := [mkContainer "probe" "p1", mkContainer "setup" "s1"] }).ret =
      some { (mkPod [mkContainer "c" "v1"]).Spec with
        InitContainers := [mkContainer "setup" "s1"] } :=
  ⟨(CheckPodSpecEquality_nil_iff (mkPod [mkContainer "c" "v1", mkContainer "d" "w1"]).Spec
      (mkPod [mkContainer "c" "v1", mkContainer "x" "v2", mkContainer "d" "w1"]).Spec).2.1
      [mkContainer "c" "v1"] [mkContainer "d" "w1"] (mkContainer "x" "v2")
      rfl rfl (by decide) (by decide) (by decide) rfl rfl,
    (CheckPodSpecEquality_nil_iff
      { (mkPod [mkContainer "c" "v1"]).Spec with InitContainers := [mkContainer "setup" "s1"] }
      { (mkPod [mkContainer "c" "v1"]).Spec with
        InitContainers := [mkContainer "probe" "p1", mkContainer "setup" "s1"] }).2.2
      [] [mkContainer "setup" "s1"] (mkContainer "probe" "p1")
      rfl rfl (by decide) (by decide) (by decide) rfl rfl⟩

/-- C20 fails as stated: with one more virtual container under a reserved-prefix name
the result is nil, and with one more virtual container under the name of a physical
one the result has another image than the physical spec. -/
theorem CheckPodSpecEquality_extra_container_cases :
    (CheckPodSpecEquality (mkPod [mkContainer "c" "v1"]).Spec
      (mkPod [mkContainer "c" "v1", mkContainer "tenancy.x-k8s.io/agent" "v2"]).Spec).ret
      = none ∧
    (CheckPodSpecEquality (mkPod [mkContainer "c" "v1"]).Spec
      (mkPod [mkContainer "c" "v1", mkContainer "c" "v2"]).Spec).ret
      = some (mkPod [mkContainer "c" "v2"]).Spec := by
  decide

end Conversion
